import Mathlib

/-!
Shallow embedding of `zero_file_share` (src/src/zero_file_share/container.py and
src/src/zero_file_share/__init__.py): an encrypted-container lifecycle engine.

The filesystem is modelled explicitly as a finite map from absolute paths
(lists of components) to file contents, together with the set of existing
directories.  File contents are modelled by an inductive `Data`: plain text,
a packed archive (the tar blob produced by `tarfile`, modelled as its list of
(relative path, contents) members), or a ciphertext.  The external crypto
library (`military_crypto_lib`, not part of this repository) is modelled from
the spec's CipherGateway contract.  All `SecureContainer` methods are state
transformers over a `World` (filesystem plus a fresh-name counter standing for
`tempfile.mkdtemp`'s freshness guarantee).
-/

namespace ZeroFileShare

/-- An absolute path on the modelled filesystem, as a list of components. -/
abbrev AbsPath := List String

/-- A relative path, as carried by archive members; may contain `..` or `.`. -/
abbrev RelPath := List String

/-- File contents: plain text, a packed tar archive (list of members, each a
relative path with its contents), or ciphertext produced by the cipher. -/
inductive Data where
  | str (s : String)
  | tar (entries : List (RelPath × Data))
  | enc (key : String) (payload : Data)

/-- Resolution of a relative path against a root directory, as the OS does when
`tarfile.extractall` joins a member name onto the destination: `..` pops one
component, `.` is skipped, any other component descends. -/
def resolve (root : AbsPath) (rel : RelPath) : AbsPath :=
  rel.foldl
    (fun acc comp =>
      if comp = ".." then acc.dropLast
      else if comp = "." then acc
      else acc ++ [comp])
    root

/-- The modelled filesystem: regular files (path with contents) and the set of
existing directories. -/
structure FS where
  files : List (AbsPath × Data)
  dirs : List AbsPath

/-- Reading a regular file (`open(p).read()`): the content if present. -/
def FS.readFile (fs : FS) (p : AbsPath) : Option Data :=
  (fs.files.find? (fun f => decide (f.1 = p))).map (·.2)

/-- Writing a regular file (`open(p, "w").write(d)`): creates or overwrites. -/
def FS.writeFile (fs : FS) (p : AbsPath) (d : Data) : FS :=
  { fs with files := (p, d) :: fs.files.filter (fun f => decide (f.1 ≠ p)) }

/-- Deleting a single regular file. -/
def FS.deleteFile (fs : FS) (p : AbsPath) : FS :=
  { fs with files := fs.files.filter (fun f => decide (f.1 ≠ p)) }

/-- The proper, nonempty ancestors of a path: for `[a, b, c]` these are
`[a]` and `[a, b]`. -/
def parentsOf (p : AbsPath) : List AbsPath :=
  (List.range (p.length - 1)).map (fun k => p.take (k + 1))

/-- `os.makedirs(dirname(p), exist_ok=True)`: ensure every ancestor directory
of the file path `p` exists. -/
def FS.mkdirs (fs : FS) (p : AbsPath) : FS :=
  { fs with dirs := parentsOf p ++ fs.dirs }

/-- `shutil.rmtree t`: remove the directory `t` and everything below it. -/
def FS.rmtree (fs : FS) (t : AbsPath) : FS :=
  { files := fs.files.filter (fun f => !(t.isPrefixOf f.1)),
    dirs := fs.dirs.filter (fun d => !(t.isPrefixOf d)) }

/-- The name `tempfile.mkdtemp(prefix="zero_file_share_")` yields for the
`n`-th allocation. -/
def tmpName (n : Nat) : String := "zero_file_share_" ++ toString n

/-- The temp directory path for the `n`-th allocation. -/
def tmpRoot (n : Nat) : AbsPath := [tmpName n]

/-- The world a `SecureContainer` acts on: the filesystem and the counter
backing `mkdtemp`'s freshness guarantee. -/
structure World where
  fs : FS
  fresh : Nat

/-- `tempfile.mkdtemp`: allocate a fresh, empty temp directory. -/
def mkdtemp (w : World) : AbsPath × World :=
  (tmpRoot w.fresh,
   { fs := { w.fs with dirs := tmpRoot w.fresh :: w.fs.dirs }, fresh := w.fresh + 1 })

/-- The error taxonomy of the engine.  The source raises `RuntimeError`s with
distinguishing messages ("Container is already mounted", "Container is not
mounted", "Failed to mount container: ..."), `FileNotFoundError` for a missing
`add_file` source, and the CLI `init` command refuses an existing container
path; these map to the spec's taxonomy names. -/
inductive VError where
  | alreadyMounted
  | notMounted
  | unlockError
  | sourceNotFound
  | containerExists
  | keyMismatch
deriving DecidableEq

/-- Modelled from the spec: `military_crypto_lib` is not part of this
repository; the spec's CipherGateway contract says `encrypt(plaintext, key)`
produces a ciphertext representation. -/
def MilitaryCrypto.encrypt (d : Data) (key : String) : Data := .enc key d

/-- Modelled from the spec: `military_crypto_lib` is not part of this
repository; the spec's CipherGateway contract says `decrypt` must fail
(`AuthenticationError`, the preferred authenticated mode) when the key is
wrong, and recovers the plaintext when the key matches. -/
def MilitaryCrypto.decrypt (d : Data) (key : String) : Except Unit Data :=
  match d with
  | .enc k p => if k = key then .ok p else .error ()
  | _ => .error ()

/-- Extraction of one archive member, as `tarfile.extractall` does it: the
member name is joined onto the destination root (no path-escape filtering),
parent directories are created, and the file is written. -/
def unpackEntry (root : AbsPath) (fs : FS) (e : RelPath × Data) : FS :=
  let tgt := resolve root e.1
  (fs.mkdirs tgt).writeFile tgt e.2

/-- `tar.extractall(root)`: extract every member in order. -/
def extractAll (entries : List (RelPath × Data)) (root : AbsPath) (fs : FS) : FS :=
  entries.foldl (unpackEntry root) fs

/-- `tarfile.open(...)` then `extractall`: fails (ReadError) when the bytes are
not a tar archive, otherwise extracts all members into `root`. -/
def unpackArchive (d : Data) (root : AbsPath) (fs : FS) : Except Unit FS :=
  match d with
  | .tar entries => .ok (extractAll entries root fs)
  | _ => .error ()

/-- The `os.walk` enumeration used by `save` and `list_files`: every regular
file below `root`, as (path relative to `root`, contents). -/
def filesUnder (fs : FS) (root : AbsPath) : List (RelPath × Data) :=
  fs.files.filterMap
    (fun f => if root.isPrefixOf f.1 then some (f.1.drop root.length, f.2) else none)

/-- The tar blob `save` builds by walking the working tree: only regular files
are added (`for file in files: tar.add(...)`), never directories. -/
def packTree (fs : FS) (root : AbsPath) : Data := .tar (filesUnder fs root)

/-- Insertion step of a stable ascending string sort (Python `sorted`). -/
def insertStr (s : String) : List String → List String
  | [] => [s]
  | t :: ts => if s ≤ t then s :: t :: ts else t :: insertStr s ts

/-- Python's `sorted` on a list of strings, modelled by insertion sort. -/
def sortStrings (l : List String) : List String := l.foldr insertStr []

/-- The state of `SecureContainer.__init__`: the container path and the two
mutable session fields `temp_dir` and `is_mounted`. -/
structure SecureContainer where
  container_path : AbsPath
  temp_dir : Option AbsPath
  is_mounted : Bool

/-- The `except` block of `mount`: `if self.temp_dir and self.temp_dir.exists():
shutil.rmtree(self.temp_dir)`. -/
def SecureContainer.cleanupTemp (c : SecureContainer) (w : World) : World :=
  match c.temp_dir with
  | some t => if t ∈ w.fs.dirs then { w with fs := w.fs.rmtree t } else w
  | none => w

/-- `create_empty`: pack an empty tar, encrypt it, write the container file.
The source performs no existence check on `container_path`. -/
def SecureContainer.create_empty (c : SecureContainer) (key : String) (w : World) : World :=
  { w with fs := w.fs.writeFile c.container_path (MilitaryCrypto.encrypt (Data.tar []) key) }

/-- `mount`: refuse if already mounted; otherwise read the container file,
decrypt, allocate a temp directory, extract the archive into it and mark the
session mounted.  Any failure inside the `try` block runs the cleanup and
surfaces as the unified "Failed to mount container" error.  Note that on
failure the source leaves `self.temp_dir` assigned (stale). -/
def SecureContainer.mount (c : SecureContainer) (key : String) (w : World) :
    Except VError AbsPath × SecureContainer × World :=
  if c.is_mounted then (.error .alreadyMounted, c, w)
  else
    match w.fs.readFile c.container_path with
    | none => (.error .unlockError, c, c.cleanupTemp w)
    | some encrypted_data =>
      match MilitaryCrypto.decrypt encrypted_data key with
      | .error _ => (.error .unlockError, c, c.cleanupTemp w)
      | .ok tar_data =>
        let alloc := mkdtemp w
        let c1 : SecureContainer := { c with temp_dir := some alloc.1 }
        match unpackArchive tar_data alloc.1 alloc.2.fs with
        | .error _ => (.error .unlockError, c1, c1.cleanupTemp alloc.2)
        | .ok fs2 => (.ok alloc.1, { c1 with is_mounted := true }, { alloc.2 with fs := fs2 })

/-- `save`: refuse if not mounted; otherwise pack the working tree (regular
files only), encrypt, and overwrite the container file.  The session state is
not changed. -/
def SecureContainer.save (c : SecureContainer) (key : String) (w : World) :
    Except VError Unit × World :=
  if c.is_mounted then
    let td := c.temp_dir.getD []
    (.ok (),
     { w with fs := w.fs.writeFile c.container_path (MilitaryCrypto.encrypt (packTree w.fs td) key) })
  else (.error .notMounted, w)

/-- `unmount`: a no-op when not mounted; otherwise remove the temp directory
from disk (when it exists) and reset both session fields. -/
def SecureContainer.unmount (c : SecureContainer) (w : World) : SecureContainer × World :=
  if c.is_mounted then
    ({ c with temp_dir := none, is_mounted := false }, c.cleanupTemp w)
  else (c, w)

/-- `Path(file_path).name`: the base name of a path. -/
def baseName (p : AbsPath) : String := p.getLast?.getD ""

/-- `add_file`: refuse a missing source; remember `was_mounted`; mount if
needed; copy the source into the tree (at `target_path`, default the source's
base name, creating parent directories) and `save`; the `finally` block
unmounts exactly when the mount was implicit. -/
def SecureContainer.add_file (c : SecureContainer) (file_path : AbsPath) (key : String)
    (target_path : Option RelPath) (w : World) :
    Except VError Unit × SecureContainer × World :=
  match w.fs.readFile file_path with
  | none => (.error .sourceNotFound, c, w)
  | some content =>
    if c.is_mounted then
      let td := c.temp_dir.getD []
      let dest := match target_path with
        | some t => resolve td t
        | none => td ++ [baseName file_path]
      let fs1 := ((w.fs.mkdirs dest).writeFile dest content)
      let saved := c.save key { w with fs := fs1 }
      (saved.1, c, saved.2)
    else
      match c.mount key w with
      | (.error e, c1, w1) => (.error e, c1, w1)
      | (.ok td, c1, w1) =>
        let dest := match target_path with
          | some t => resolve td t
          | none => td ++ [baseName file_path]
        let fs1 := ((w1.fs.mkdirs dest).writeFile dest content)
        let saved := c1.save key { w1 with fs := fs1 }
        let fin := c1.unmount saved.2
        (saved.1, fin.1, fin.2)

/-- `list_files`: refuse if not mounted; otherwise walk the working tree and
return the sorted relative paths (rendered with `/` separators). -/
def SecureContainer.list_files (c : SecureContainer) (w : World) :
    Except VError (List String) :=
  if c.is_mounted then
    .ok (sortStrings ((filesUnder w.fs (c.temp_dir.getD [])).map
      (fun e => String.intercalate "/" e.1)))
  else .error .notMounted

/-- The existence check `Path(p).exists()`: a file or a directory at `p`. -/
def FS.pathExists (fs : FS) (p : AbsPath) : Bool :=
  (fs.readFile p).isSome || decide (p ∈ fs.dirs)

/-- The CLI `init` command (`init_container` in `__init__.py`): refuse an
existing container path, refuse mismatched key confirmation, otherwise call
`create_empty`. -/
def init_container (container_path : AbsPath) (key confirm_key : String) (w : World) :
    Except VError World :=
  if w.fs.pathExists container_path then .error .containerExists
  else if key = confirm_key then
    .ok ((SecureContainer.mk container_path none false).create_empty key w)
  else .error .keyMismatch

/-- An edit the caller performs inside the working tree between mount and
unmount: write a file at a relative path, delete one, or create a
subdirectory. -/
inductive Edit where
  | write (rel : RelPath) (d : Data)
  | delete (rel : RelPath)
  | mkdirAt (rel : RelPath)

/-- Application of one caller edit at the working-tree root. -/
def applyEdit (root : AbsPath) (fs : FS) : Edit → FS
  | .write rel d => (fs.mkdirs (root ++ rel)).writeFile (root ++ rel) d
  | .delete rel => fs.deleteFile (root ++ rel)
  | .mkdirAt rel => { fs with dirs := (root ++ rel) :: fs.dirs }

/-- The no-save scenario: mount, let the caller edit the working tree, then
unmount without an intervening save. -/
def mount_edit_unmount (c : SecureContainer) (key : String) (edits : List Edit)
    (w : World) : SecureContainer × World :=
  match c.mount key w with
  | (.ok td, c1, w1) => c1.unmount { w1 with fs := edits.foldl (applyEdit td) w1.fs }
  | (.error _, c1, w1) => (c1, w1)

/-- The end-to-end scenario of the spec: create an empty container, mount it,
list it, copy one file with the given name and content into the tree, save,
unmount, mount again; observe the first mount result, the first listing, the
second listing, and the re-read content of the copied file. -/
def roundtrip_scenario (key fname : String) (content : Data) :
    Except VError AbsPath × Except VError (List String) × Except VError (List String) ×
      Option Data :=
  let c0 := SecureContainer.mk ["c.vault"] none false
  let w1 := c0.create_empty key ⟨⟨[], []⟩, 0⟩
  let m1 := c0.mount key w1
  let l1 := m1.2.1.list_files m1.2.2
  let w2 := { m1.2.2 with
    fs := applyEdit (m1.2.1.temp_dir.getD []) m1.2.2.fs (.write [fname] content) }
  let s1 := m1.2.1.save key w2
  let u1 := m1.2.1.unmount s1.2
  let m2 := u1.1.mount key u1.2
  (m1.1, l1, m2.2.1.list_files m2.2.2,
    m2.2.2.fs.readFile ((m2.2.1.temp_dir.getD []) ++ [fname]))

/-! ### Helper lemmas about the filesystem model -/

theorem isPrefixOf_eq_false_iff (t d : AbsPath) : t.isPrefixOf d = false ↔ ¬ t <+: d := by
  constructor
  · intro h hp
    have hb := List.isPrefixOf_iff_prefix.mpr hp
    rw [h] at hb
    exact Bool.noConfusion hb
  · intro h
    cases hb : t.isPrefixOf d
    · rfl
    · exact absurd (List.isPrefixOf_iff_prefix.mp hb) h

theorem mem_dirs_rmtree {fs : FS} {t d : AbsPath} :
    d ∈ (fs.rmtree t).dirs ↔ d ∈ fs.dirs ∧ ¬ t <+: d := by
  simp [FS.rmtree, List.mem_filter, isPrefixOf_eq_false_iff]

theorem mem_files_rmtree {fs : FS} {t : AbsPath} {f : AbsPath × Data} :
    f ∈ (fs.rmtree t).files ↔ f ∈ fs.files ∧ ¬ t <+: f.1 := by
  simp [FS.rmtree, List.mem_filter, isPrefixOf_eq_false_iff]

/-- After running the `except`-block cleanup, the stale temp directory is gone
from disk, provided the filesystem is consistent: either the directory exists
(so `rmtree` runs) or nothing lies under it. -/
theorem cleanupTemp_clean (c : SecureContainer) (w : World) (t : AbsPath)
    (ht : c.temp_dir = some t)
    (h : t ∈ w.fs.dirs ∨ ∀ f ∈ w.fs.files, ¬ t <+: f.1) :
    t ∉ (c.cleanupTemp w).fs.dirs ∧ ∀ f ∈ (c.cleanupTemp w).fs.files, ¬ t <+: f.1 := by
  simp only [SecureContainer.cleanupTemp, ht]
  by_cases hmem : t ∈ w.fs.dirs
  · rw [if_pos hmem]
    constructor
    · rw [mem_dirs_rmtree]
      rintro ⟨-, hnp⟩
      exact hnp (List.prefix_refl t)
    · intro f hf
      exact (mem_files_rmtree.mp hf).2
  · rw [if_neg hmem]
    exact ⟨hmem, h.resolve_left hmem⟩

/-- The shared analysis of `mount`'s failure paths: the session stays
unmounted and whatever `temp_dir` points to afterwards has no presence on
disk. -/
theorem mount_error_aux (c : SecureContainer) (key : String) (w : World)
    (hm : c.is_mounted = false)
    (hclean : ∀ t, c.temp_dir = some t →
      t ∈ w.fs.dirs ∨ ∀ f ∈ w.fs.files, ¬ t <+: f.1)
    {e : VError} {c' : SecureContainer} {w' : World}
    (h : c.mount key w = (.error e, c', w')) :
    c'.is_mounted = false ∧
    ∀ t, c'.temp_dir = some t → t ∉ w'.fs.dirs ∧ ∀ f ∈ w'.fs.files, ¬ t <+: f.1 := by
  unfold SecureContainer.mount at h
  simp only [hm, Bool.false_eq_true, if_false] at h
  cases hread : w.fs.readFile c.container_path with
  | none =>
    simp only [hread, Prod.mk.injEq] at h
    obtain ⟨-, hc, hw⟩ := h
    subst hc; subst hw
    exact ⟨hm, fun t ht => cleanupTemp_clean c w t ht (hclean t ht)⟩
  | some ed =>
    simp only [hread] at h
    cases hdec : MilitaryCrypto.decrypt ed key with
    | error u =>
      simp only [hdec, Prod.mk.injEq] at h
      obtain ⟨-, hc, hw⟩ := h
      subst hc; subst hw
      exact ⟨hm, fun t ht => cleanupTemp_clean c w t ht (hclean t ht)⟩
    | ok tar_data =>
      simp only [hdec] at h
      cases hun : unpackArchive tar_data (mkdtemp w).1 (mkdtemp w).2.fs with
      | error u =>
        simp only [hun, Prod.mk.injEq] at h
        obtain ⟨-, hc, hw⟩ := h
        subst hc; subst hw
        refine ⟨rfl, fun t ht => ?_⟩
        simp only [Option.some.injEq] at ht
        subst ht
        apply cleanupTemp_clean _ _ _ rfl
        left
        exact List.mem_cons_self _ _
      | ok fs2 =>
        simp only [hun, Prod.mk.injEq, reduceCtorEq, false_and] at h

/-- The shape of a successful `mount`. -/
theorem mount_ok_shape (c : SecureContainer) (key : String) (w : World)
    {td : AbsPath} {c' : SecureContainer} {w' : World}
    (h : c.mount key w = (.ok td, c', w')) :
    c' = { c with temp_dir := some td, is_mounted := true } ∧ td = tmpRoot w.fresh := by
  unfold SecureContainer.mount at h
  cases hm : c.is_mounted with
  | true => simp only [hm, if_true, Prod.mk.injEq, reduceCtorEq, false_and] at h
  | false =>
    simp only [hm, Bool.false_eq_true, if_false] at h
    cases hread : w.fs.readFile c.container_path with
    | none => simp only [hread, Prod.mk.injEq, reduceCtorEq, false_and] at h
    | some ed =>
      simp only [hread] at h
      cases hdec : MilitaryCrypto.decrypt ed key with
      | error u => simp only [hdec, Prod.mk.injEq, reduceCtorEq, false_and] at h
      | ok tar_data =>
        simp only [hdec] at h
        cases hun : unpackArchive tar_data (mkdtemp w).1 (mkdtemp w).2.fs with
        | error u => simp only [hun, Prod.mk.injEq, reduceCtorEq, false_and] at h
        | ok fs2 =>
          simp only [hun, Prod.mk.injEq, Except.ok.injEq] at h
          obtain ⟨h1, h2, -⟩ := h
          subst h1
          exact ⟨h2.symm, rfl⟩

/-! ### Frame lemmas: which operations leave a given file untouched -/

theorem find_filter_of_imp {α : Type} (l : List α) (p keep : α → Bool)
    (h : ∀ a, p a = true → keep a = true) :
    (l.filter keep).find? p = l.find? p := by
  induction l with
  | nil => rfl
  | cons a l ih =>
    by_cases hk : keep a = true
    · rw [List.filter_cons_of_pos hk]
      cases hp : p a
      · rw [List.find?_cons_of_neg _ (by simp [hp]), List.find?_cons_of_neg _ (by simp [hp])]
        exact ih
      · rw [List.find?_cons_of_pos _ hp, List.find?_cons_of_pos _ hp]
    · have hp : p a = false := by
        cases hpa : p a
        · rfl
        · exact absurd (h a hpa) hk
      rw [List.filter_cons_of_neg (by simp [hk]), List.find?_cons_of_neg _ (by simp [hp])]
      exact ih

theorem readFile_writeFile_self (fs : FS) (p : AbsPath) (d : Data) :
    (fs.writeFile p d).readFile p = some d := by
  simp [FS.writeFile, FS.readFile]

theorem readFile_writeFile_ne (fs : FS) {p q : AbsPath} (d : Data) (h : q ≠ p) :
    (fs.writeFile p d).readFile q = fs.readFile q := by
  unfold FS.writeFile FS.readFile
  simp only
  rw [List.find?_cons_of_neg _
    (by simp only [decide_eq_true_eq]; exact fun hpq => h hpq.symm)]
  rw [find_filter_of_imp]
  intro a ha
  simp only [decide_eq_true_eq] at ha ⊢
  rw [ha]
  exact fun hqp => h hqp

theorem readFile_deleteFile_ne (fs : FS) {p q : AbsPath} (h : q ≠ p) :
    (fs.deleteFile p).readFile q = fs.readFile q := by
  unfold FS.deleteFile FS.readFile
  simp only
  rw [find_filter_of_imp]
  intro a ha
  simp only [decide_eq_true_eq] at ha ⊢
  rw [ha]
  exact fun hqp => h hqp

theorem readFile_rmtree (fs : FS) {t p : AbsPath} (h : ¬ t <+: p) :
    (fs.rmtree t).readFile p = fs.readFile p := by
  unfold FS.rmtree FS.readFile
  simp only
  rw [find_filter_of_imp]
  intro a ha
  simp only [decide_eq_true_eq] at ha
  rw [ha, Bool.not_eq_true']
  exact (isPrefixOf_eq_false_iff t p).mpr h

theorem readFile_mkdirs (fs : FS) (x p : AbsPath) :
    (fs.mkdirs x).readFile p = fs.readFile p := rfl

theorem readFile_extractAll (entries : List (RelPath × Data)) (root : AbsPath) (fs : FS)
    {p : AbsPath} (h : ∀ e ∈ entries, resolve root e.1 ≠ p) :
    (extractAll entries root fs).readFile p = fs.readFile p := by
  induction entries generalizing fs with
  | nil => rfl
  | cons e es ih =>
    unfold extractAll at ih ⊢
    rw [List.foldl_cons, ih _ (fun a ha => h a (List.mem_cons_of_mem e ha))]
    unfold unpackEntry
    rw [readFile_writeFile_ne]
    · exact readFile_mkdirs fs _ p
    · exact fun hq => (h e (List.mem_cons_self e es)) hq.symm

theorem readFile_foldl_applyEdit (edits : List Edit) (root : AbsPath) (fs : FS)
    {p : AbsPath} (h : ¬ root <+: p) :
    (edits.foldl (applyEdit root) fs).readFile p = fs.readFile p := by
  induction edits generalizing fs with
  | nil => rfl
  | cons e es ih =>
    rw [List.foldl_cons, ih]
    cases e with
    | write rel d =>
      rw [applyEdit, readFile_writeFile_ne]
      · exact readFile_mkdirs fs _ p
      · exact fun hq => h (hq ▸ List.prefix_append root rel)
    | delete rel =>
      exact readFile_deleteFile_ne fs (fun hq => h (hq ▸ List.prefix_append root rel))
    | mkdirAt rel => rfl

theorem mem_parentsOf {q p : AbsPath} (h : q ∈ parentsOf p) :
    q <+: p ∧ q.length < p.length := by
  unfold parentsOf at h
  simp only [List.mem_map, List.mem_range] at h
  obtain ⟨k, hk, rfl⟩ := h
  refine ⟨ List.take_prefix _ _, ?_⟩
  rw [List.length_take]
  omega

theorem mem_dirs_extractAll {entries : List (RelPath × Data)} {root : AbsPath} {fs : FS}
    {q : AbsPath} (h : q ∈ (extractAll entries root fs).dirs) :
    q ∈ fs.dirs ∨ ∃ e ∈ entries, q ∈ parentsOf (resolve root e.1) := by
  induction entries generalizing fs with
  | nil => exact Or.inl h
  | cons e es ih =>
    unfold extractAll at h ih
    rw [List.foldl_cons] at h
    rcases ih h with h' | ⟨e', he', hq⟩
    · simp only [unpackEntry, FS.writeFile, FS.mkdirs, List.mem_append] at h'
      rcases h' with h1 | h2
      · exact Or.inr ⟨e, List.mem_cons_self e es, h1⟩
      · exact Or.inl h2
    · exact Or.inr ⟨e', List.mem_cons_of_mem e he', hq⟩

theorem mem_filesUnder {fs : FS} {root : AbsPath} {e : RelPath × Data}
    (h : e ∈ filesUnder fs root) :
    ∃ f ∈ fs.files, root <+: f.1 ∧ e = (f.1.drop root.length, f.2) := by
  unfold filesUnder at h
  simp only [List.mem_filterMap] at h
  obtain ⟨f, hf, heq⟩ := h
  by_cases hp : root.isPrefixOf f.1
  · rw [if_pos hp] at heq
    simp only [Option.some.injEq] at heq
    exact ⟨f, hf, List.isPrefixOf_iff_prefix.mp hp, heq.symm⟩
  · rw [if_neg hp] at heq
    exact absurd heq (by simp)

theorem append_drop_restore {l₁ l₂ : AbsPath} (h : l₁ <+: l₂) :
    l₁ ++ l₂.drop l₁.length = l₂ := by
  obtain ⟨s, rfl⟩ := h
  rw [List.drop_left]

theorem resolve_no_dots (root : AbsPath) (rel : RelPath)
    (h1 : ".." ∉ rel) (h2 : "." ∉ rel) : resolve root rel = root ++ rel := by
  induction rel generalizing root with
  | nil => simp [resolve]
  | cons a as ih =>
    unfold resolve
    rw [List.foldl_cons]
    rw [if_neg (fun heq => h1 (by rw [← heq]; exact List.mem_cons_self _ _)),
        if_neg (fun heq => h2 (by rw [← heq]; exact List.mem_cons_self _ _))]
    have hrec := ih (root ++ [a]) (fun hm => h1 (List.mem_cons_of_mem _ hm))
      (fun hm => h2 (List.mem_cons_of_mem _ hm))
    unfold resolve at hrec
    rw [hrec]
    simp

/-! ### C7, C8, C9: state-machine guard behaviour -/

/-- Claim C7: calling `mount` on a session in the `Mounted` state fails with
`AlreadyMountedError`, and both the session state and the world (hence the
existing WorkingTree) are left unchanged. -/
theorem mount_already_mounted (c : SecureContainer) (key : String) (w : World)
    (h : c.is_mounted = true) :
    c.mount key w = (.error .alreadyMounted, c, w) := by
  simp [SecureContainer.mount, h]

/-- Witness for C7 at a concrete mounted session. -/
theorem mount_already_mounted_w :
    (SecureContainer.mk ["c.vault"] (some (tmpRoot 0)) true).mount "pw"
      ⟨⟨[], [tmpRoot 0]⟩, 1⟩ =
    (.error .alreadyMounted, SecureContainer.mk ["c.vault"] (some (tmpRoot 0)) true,
      ⟨⟨[], [tmpRoot 0]⟩, 1⟩) :=
  mount_already_mounted _ _ _ rfl

/-- Claim C8: calling `save` or `list_files` on a session in the `Unmounted`
state fails with `NotMountedError`; `save` leaves the world (hence the
container file) unchanged, and `list_files` does not touch the world at all
(it is a pure reader). -/
theorem save_list_files_not_mounted (c : SecureContainer) (key : String) (w : World)
    (h : c.is_mounted = false) :
    c.save key w = (.error .notMounted, w) ∧ c.list_files w = .error .notMounted := by
  constructor
  · simp [SecureContainer.save, h]
  · simp [SecureContainer.list_files, h]

/-- Witness for C8 at a concrete unmounted session. -/
theorem save_list_files_not_mounted_w :
    (SecureContainer.mk ["c.vault"] none false).save "pw" ⟨⟨[], []⟩, 0⟩ =
      (.error .notMounted, ⟨⟨[], []⟩, 0⟩) ∧
    (SecureContainer.mk ["c.vault"] none false).list_files ⟨⟨[], []⟩, 0⟩ =
      .error .notMounted :=
  save_list_files_not_mounted _ _ _ rfl

/-- Claim C9: `unmount` is idempotent and never fails (its type has no error
channel): from the `Unmounted` state it is a no-op, after any call the state
is `Unmounted`, and a second call in a row leaves exactly the state the first
call produced. -/
theorem unmount_idempotent (c : SecureContainer) (w : World) :
    (c.is_mounted = false → c.unmount w = (c, w)) ∧
    (c.unmount w).1.is_mounted = false ∧
    (c.unmount w).1.unmount (c.unmount w).2 = c.unmount w := by
  cases hm : c.is_mounted
  · simp [SecureContainer.unmount, hm]
  · simp [SecureContainer.unmount, hm]

/-- Witness for C9 at a concrete session and world. -/
theorem unmount_idempotent_w :
    ((SecureContainer.mk ["c.vault"] none false).is_mounted = false →
      (SecureContainer.mk ["c.vault"] none false).unmount ⟨⟨[], []⟩, 0⟩ =
        (SecureContainer.mk ["c.vault"] none false, ⟨⟨[], []⟩, 0⟩)) ∧
    ((SecureContainer.mk ["c.vault"] none false).unmount ⟨⟨[], []⟩, 0⟩).1.is_mounted = false ∧
    ((SecureContainer.mk ["c.vault"] none false).unmount ⟨⟨[], []⟩, 0⟩).1.unmount
        ((SecureContainer.mk ["c.vault"] none false).unmount ⟨⟨[], []⟩, 0⟩).2 =
      (SecureContainer.mk ["c.vault"] none false).unmount ⟨⟨[], []⟩, 0⟩ :=
  unmount_idempotent _ _

/-- The shape of a successful `mount` on a container holding a well-formed
encrypted archive under the right key. -/
theorem mount_of_clean (c : SecureContainer) (key : String) (w : World)
    (entries : List (RelPath × Data))
    (hm : c.is_mounted = false)
    (hread : w.fs.readFile c.container_path = some (.enc key (.tar entries))) :
    c.mount key w = (.ok (tmpRoot w.fresh),
      { c with temp_dir := some (tmpRoot w.fresh), is_mounted := true },
      { fs := extractAll entries (tmpRoot w.fresh)
          { w.fs with dirs := tmpRoot w.fresh :: w.fs.dirs },
        fresh := w.fresh + 1 }) := by
  unfold SecureContainer.mount
  simp only [hm, Bool.false_eq_true, if_false, hread, MilitaryCrypto.decrypt,
    eq_self_iff_true, if_true, unpackArchive, mkdtemp]

theorem unmount_of_mounted (c : SecureContainer) (hm : c.is_mounted = true) (w : World) :
    c.unmount w = ({ c with temp_dir := none, is_mounted := false }, c.cleanupTemp w) := by
  simp [SecureContainer.unmount, hm]

/-! ### C1: cleanup on mount failure -/

/-- Claim C1: whenever `mount` on an unmounted session fails — at reading the
container file, at decrypting, or at unpacking the archive — the WorkingTree
directory is fully removed from disk (the directory pointed to by `temp_dir`
is not on disk and no file lies under it) and the session state remains
`Unmounted`.  `hclean` is the filesystem-consistency assumption that a stale
`temp_dir` either exists as a directory (so `rmtree` can remove it) or has
nothing beneath it. -/
theorem mount_failure_cleanup (c : SecureContainer) (key : String) (w : World)
    (hm : c.is_mounted = false)
    (hclean : ∀ t, c.temp_dir = some t →
      t ∈ w.fs.dirs ∨ ∀ f ∈ w.fs.files, ¬ t <+: f.1)
    {e : VError} {c' : SecureContainer} {w' : World}
    (h : c.mount key w = (.error e, c', w')) :
    c'.is_mounted = false ∧
    ∀ t, c'.temp_dir = some t → t ∉ w'.fs.dirs ∧ ∀ f ∈ w'.fs.files, ¬ t <+: f.1 :=
  mount_error_aux c key w hm hclean h

/-- Witness for C1: a container holding ciphertext of non-archive bytes, so
decryption succeeds but unpacking fails; the freshly allocated WorkingTree is
removed again, the stale `temp_dir` field points at nothing on disk, and the
session stays unmounted. -/
theorem mount_failure_cleanup_w :
    (SecureContainer.mk ["c.vault"] (some (tmpRoot 0)) false).is_mounted = false ∧
    ∀ t, (SecureContainer.mk ["c.vault"] (some (tmpRoot 0)) false).temp_dir = some t →
      t ∉ (⟨⟨[(["c.vault"], Data.enc "pw" (.str "junk"))], []⟩, 1⟩ : World).fs.dirs ∧
      ∀ f ∈ (⟨⟨[(["c.vault"], Data.enc "pw" (.str "junk"))], []⟩, 1⟩ : World).fs.files,
        ¬ t <+: f.1 :=
  mount_failure_cleanup (SecureContainer.mk ["c.vault"] none false) "pw"
    ⟨⟨[(["c.vault"], Data.enc "pw" (.str "junk"))], []⟩, 0⟩ rfl
    (fun _t ht => nomatch ht) rfl

/-! ### C3: add_file is transactionally scoped -/

/-- Claim C3: the implicit mount inside `add_file` is matched by an unmount on
every exit path: starting `Unmounted`, after `add_file` returns or fails the
session is `Unmounted` again and no WorkingTree remains on disk; starting
`Mounted`, the session stays `Mounted`.  `hclean` is the MountSession
invariant for the initial state: an unmounted session has no WorkingTree on
disk. -/
theorem add_file_transactional (c : SecureContainer) (src : AbsPath) (key : String)
    (target : Option RelPath) (w : World)
    (hclean : c.is_mounted = false → ∀ t, c.temp_dir = some t →
      t ∉ w.fs.dirs ∧ ∀ f ∈ w.fs.files, ¬ t <+: f.1)
    {r : Except VError Unit} {c' : SecureContainer} {w' : World}
    (h : c.add_file src key target w = (r, c', w')) :
    (c.is_mounted = false → c'.is_mounted = false ∧
      ∀ t, c'.temp_dir = some t → t ∉ w'.fs.dirs ∧ ∀ f ∈ w'.fs.files, ¬ t <+: f.1) ∧
    (c.is_mounted = true → c'.is_mounted = true) := by
  unfold SecureContainer.add_file at h
  cases hsrc : w.fs.readFile src with
  | none =>
    simp only [hsrc, Prod.mk.injEq] at h
    obtain ⟨-, hc, hw⟩ := h
    subst hc; subst hw
    exact ⟨fun hm => ⟨hm, hclean hm⟩, fun hm => hm⟩
  | some content =>
    simp only [hsrc] at h
    cases hm : c.is_mounted with
    | true =>
      simp only [hm, if_true, Prod.mk.injEq] at h
      obtain ⟨-, hc, -⟩ := h
      subst hc
      exact ⟨fun hmf => Bool.noConfusion hmf, fun _ => hm⟩
    | false =>
      simp only [hm, Bool.false_eq_true, if_false] at h
      rcases hmnt : c.mount key w with ⟨e1 | td1, c1, w1⟩
      · simp only [hmnt, Prod.mk.injEq] at h
        obtain ⟨-, hc, hw⟩ := h
        subst hc; subst hw
        have haux := mount_error_aux c key w hm
          (fun t ht => Or.inr (hclean hm t ht).2) hmnt
        exact ⟨fun _ => haux, fun hmt => Bool.noConfusion hmt⟩
      · obtain ⟨hc1, -⟩ := mount_ok_shape c key w hmnt
        subst hc1
        simp only [hmnt,
          unmount_of_mounted { c with temp_dir := some td1, is_mounted := true } rfl,
          Prod.mk.injEq] at h
        obtain ⟨-, hc, -⟩ := h
        subst hc
        exact ⟨fun _ => ⟨rfl, fun _t ht => nomatch ht⟩,
          fun hmt => Bool.noConfusion hmt⟩

/-- Witness for C3: `add_file` from the unmounted state on a world holding the
container and the source file; afterwards the session is unmounted with no
WorkingTree, exercising the implicit mount/save/unmount path. -/
theorem add_file_transactional_w :
    ((SecureContainer.mk ["c.vault"] none false).is_mounted = false →
      ((SecureContainer.mk ["c.vault"] none false).add_file ["home", "report.pdf"] "pw" none
          ⟨⟨[(["c.vault"], .enc "pw" (.tar [])), (["home", "report.pdf"], .str "R")],
            [["home"]]⟩, 0⟩).2.1.is_mounted = false ∧
      ∀ t, ((SecureContainer.mk ["c.vault"] none false).add_file ["home", "report.pdf"] "pw" none
          ⟨⟨[(["c.vault"], .enc "pw" (.tar [])), (["home", "report.pdf"], .str "R")],
            [["home"]]⟩, 0⟩).2.1.temp_dir = some t →
        t ∉ ((SecureContainer.mk ["c.vault"] none false).add_file ["home", "report.pdf"] "pw" none
          ⟨⟨[(["c.vault"], .enc "pw" (.tar [])), (["home", "report.pdf"], .str "R")],
            [["home"]]⟩, 0⟩).2.2.fs.dirs ∧
        ∀ f ∈ ((SecureContainer.mk ["c.vault"] none false).add_file ["home", "report.pdf"] "pw" none
          ⟨⟨[(["c.vault"], .enc "pw" (.tar [])), (["home", "report.pdf"], .str "R")],
            [["home"]]⟩, 0⟩).2.2.fs.files, ¬ t <+: f.1) ∧
    ((SecureContainer.mk ["c.vault"] none false).is_mounted = true →
      ((SecureContainer.mk ["c.vault"] none false).add_file ["home", "report.pdf"] "pw" none
          ⟨⟨[(["c.vault"], .enc "pw" (.tar [])), (["home", "report.pdf"], .str "R")],
            [["home"]]⟩, 0⟩).2.1.is_mounted = true) :=
  add_file_transactional (SecureContainer.mk ["c.vault"] none false) ["home", "report.pdf"]
    "pw" none
    ⟨⟨[(["c.vault"], .enc "pw" (.tar [])), (["home", "report.pdf"], .str "R")], [["home"]]⟩, 0⟩
    (fun _ t ht => nomatch ht) rfl

/-! ### C5: create_empty on an existing path -/

/-- Counterexample to claim C5 as stated: with a container already present at
`["c.vault"]` (content `"old"`), `create_empty` does not fail — its type has
no error channel at all — and it overwrites the existing container with a
fresh empty one. -/
theorem create_empty_overwrites_existing :
    ((SecureContainer.mk ["c.vault"] none false).create_empty "pw"
        ⟨⟨[(["c.vault"], .str "old")], []⟩, 0⟩).fs.readFile ["c.vault"] =
      some (.enc "pw" (.tar [])) ∧
    (Data.enc "pw" (.tar [])) ≠ .str "old" :=
  ⟨rfl, nofun⟩

/-- Claim C5 (amended): `SecureContainer.create_empty` itself performs no
existence check and overwrites unconditionally; the refusal of an existing
path is implemented one layer up, in the CLI `init` command, which fails with
the container-exists error and leaves the world (hence the existing container)
unchanged, never calling `create_empty`. -/
theorem init_container_refuses_existing (p : AbsPath) (k k' : String) (w : World)
    (h : w.fs.pathExists p = true) :
    init_container p k k' w = .error .containerExists := by
  simp [init_container, h]

/-- Witness for the amended C5 at a concrete world holding a container. -/
theorem init_container_refuses_existing_w :
    init_container ["c.vault"] "pw" "pw" ⟨⟨[(["c.vault"], .str "old")], []⟩, 0⟩ =
      .error .containerExists :=
  init_container_refuses_existing _ _ _ _ rfl

/-! ### C2: path-escaping archive entries during mount -/

/-- Claim C2 evaluated at the failing input: a container whose archive holds
the member `../evil.txt`.  `mount` succeeds (no `PathEscapeError` exists
anywhere in the code path: `extractall` is called with no filter), and the
member's content is written to `["evil.txt"]`, which is outside the
WorkingTree root `tmpRoot 0`. -/
theorem mount_extracts_path_escaping_entry :
    ((SecureContainer.mk ["c.vault"] none false).mount "pw"
        ⟨⟨[(["c.vault"], .enc "pw" (.tar [(["..", "evil.txt"], .str "x")]))], []⟩, 0⟩).1 =
      .ok (tmpRoot 0) ∧
    ((SecureContainer.mk ["c.vault"] none false).mount "pw"
        ⟨⟨[(["c.vault"], .enc "pw" (.tar [(["..", "evil.txt"], .str "x")]))], []⟩, 0⟩).2.2.fs.readFile
        ["evil.txt"] = some (.str "x") ∧
    ¬ tmpRoot 0 <+: ["evil.txt"] :=
  ⟨rfl, rfl, by decide⟩

/-! ### C4: the no-save invariant -/

/-- Counterexample to claim C4 as stated ("for every container file"): a
container whose archive holds a member `../c.vault` aimed back at the
container file itself.  `mount` extracts it over the container, so mount
followed by no edits and `unmount` — no `save` anywhere — changes the
container file's bytes. -/
theorem no_save_counterexample :
    (mount_edit_unmount (SecureContainer.mk ["c.vault"] none false) "pw" []
        ⟨⟨[(["c.vault"], .enc "pw" (.tar [(["..", "c.vault"], .str "evil")]))], []⟩, 0⟩).2.fs.readFile
        ["c.vault"] = some (.str "evil") ∧
    (Data.str "evil") ≠ .enc "pw" (.tar [(["..", "c.vault"], .str "evil")]) :=
  ⟨rfl, nofun⟩

/-- Claim C4 (amended): for every container whose decrypted archive contains
no path-escaping entry (every member resolves inside the WorkingTree root),
mount followed by any sequence of edits to the WorkingTree and then unmount
without an intervening save leaves the container file's bytes exactly as they
were before the mount.  (`hcont` is the `mkdtemp` freshness guarantee: the
newly allocated WorkingTree root does not sit above the container file.) -/
theorem no_save_leaves_container_unchanged (c : SecureContainer) (key : String)
    (edits : List Edit) (w : World) (d : Data) (entries : List (RelPath × Data))
    (hm : c.is_mounted = false)
    (hread : w.fs.readFile c.container_path = some d)
    (hdec : MilitaryCrypto.decrypt d key = .ok (.tar entries))
    (hesc : ∀ e ∈ entries, tmpRoot w.fresh <+: resolve (tmpRoot w.fresh) e.1)
    (hcont : ¬ tmpRoot w.fresh <+: c.container_path) :
    (mount_edit_unmount c key edits w).2.fs.readFile c.container_path =
      w.fs.readFile c.container_path := by
  have hmount : c.mount key w = (.ok (tmpRoot w.fresh),
      { c with temp_dir := some (tmpRoot w.fresh), is_mounted := true },
      { fs := extractAll entries (tmpRoot w.fresh)
          { w.fs with dirs := tmpRoot w.fresh :: w.fs.dirs }, fresh := w.fresh + 1 }) := by
    unfold SecureContainer.mount
    simp only [hm, Bool.false_eq_true, if_false, hread, hdec, unpackArchive, mkdtemp]
  have hchain : ∀ fs2 : FS,
      fs2 = edits.foldl (applyEdit (tmpRoot w.fresh))
        (extractAll entries (tmpRoot w.fresh) { w.fs with dirs := tmpRoot w.fresh :: w.fs.dirs }) →
      fs2.readFile c.container_path = w.fs.readFile c.container_path := by
    intro fs2 hfs2
    subst hfs2
    rw [readFile_foldl_applyEdit _ _ _ hcont,
        readFile_extractAll _ _ _ (fun e he heq => hcont (by rw [← heq]; exact hesc e he))]
    rfl
  unfold mount_edit_unmount
  rw [hmount]
  simp only [SecureContainer.unmount, if_true, SecureContainer.cleanupTemp]
  by_cases hd : tmpRoot w.fresh ∈
      (edits.foldl (applyEdit (tmpRoot w.fresh))
        (extractAll entries (tmpRoot w.fresh) { w.fs with dirs := tmpRoot w.fresh :: w.fs.dirs })).dirs
  · rw [if_pos hd, readFile_rmtree _ hcont]
    exact hchain _ rfl
  · rw [if_neg hd]
    exact hchain _ rfl

/-- Witness for the amended C4: a concrete clean container with one entry, one
edit inside the tree, no save — the container file is unchanged. -/
theorem no_save_leaves_container_unchanged_w :
    (mount_edit_unmount (SecureContainer.mk ["c.vault"] none false) "pw"
        [.write ["b.txt"] (.str "2")]
        ⟨⟨[(["c.vault"], .enc "pw" (.tar [(["a.txt"], .str "1")]))], []⟩, 0⟩).2.fs.readFile
        ["c.vault"] =
      (⟨⟨[(["c.vault"], .enc "pw" (.tar [(["a.txt"], .str "1")]))], []⟩, 0⟩ : World).fs.readFile
        ["c.vault"] :=
  no_save_leaves_container_unchanged _ _ _ _ _ _ rfl rfl rfl
    (by decide) (by decide)

/-! ### C6: the end-to-end round trip -/

/-- Claim C6: for every key and every file name (a plain component) with any
content, the round trip — createEmpty, mount (empty tree, `list_files`
returns `[]`), copy the file into the tree, save, unmount, mount again —
yields a WorkingTree where `list_files` returns exactly the file's relative
path and the file's content reads back unchanged. -/
theorem end_to_end_roundtrip (key fname : String) (content : Data)
    (h1 : fname ≠ "..") (h2 : fname ≠ ".") :
    roundtrip_scenario key fname content =
      (.ok (tmpRoot 0), .ok [], .ok [fname], some content) := by
  have hres : resolve (tmpRoot 1) [fname] = tmpRoot 1 ++ [fname] := by
    simp [resolve, h1, h2]
  have hm1 : (SecureContainer.mk ["c.vault"] none false).mount key
      ⟨⟨[(["c.vault"], Data.enc key (.tar []))], []⟩, 0⟩ =
      (.ok (tmpRoot 0), SecureContainer.mk ["c.vault"] (some (tmpRoot 0)) true,
        ⟨extractAll [] (tmpRoot 0)
          ⟨[(["c.vault"], Data.enc key (.tar []))], [tmpRoot 0]⟩, 1⟩) :=
    mount_of_clean (SecureContainer.mk ["c.vault"] none false) key
      ⟨⟨[(["c.vault"], Data.enc key (.tar []))], []⟩, 0⟩ [] rfl rfl
  have hm2 : (SecureContainer.mk ["c.vault"] none false).mount key
      ⟨⟨[(["c.vault"], Data.enc key (.tar [([fname], content)]))], []⟩, 1⟩ =
      (.ok (tmpRoot 1), SecureContainer.mk ["c.vault"] (some (tmpRoot 1)) true,
        ⟨extractAll [([fname], content)] (tmpRoot 1)
          ⟨[(["c.vault"], Data.enc key (.tar [([fname], content)]))], [tmpRoot 1]⟩, 2⟩) :=
    mount_of_clean (SecureContainer.mk ["c.vault"] none false) key
      ⟨⟨[(["c.vault"], Data.enc key (.tar [([fname], content)]))], []⟩, 1⟩
      [([fname], content)] rfl rfl
  have hex2 : extractAll [([fname], content)] (tmpRoot 1)
      { files := [(["c.vault"], Data.enc key (.tar [([fname], content)]))],
        dirs := [tmpRoot 1] } =
      (FS.mkdirs
        { files := [(["c.vault"], Data.enc key (.tar [([fname], content)]))],
          dirs := [tmpRoot 1] } (tmpRoot 1 ++ [fname])).writeFile
        (tmpRoot 1 ++ [fname]) content := by
    simp only [extractAll, List.foldl, unpackEntry, hres]
  unfold roundtrip_scenario
  simp only [show (SecureContainer.mk ["c.vault"] none false).create_empty key ⟨⟨[], []⟩, 0⟩ =
    ⟨⟨[(["c.vault"], Data.enc key (.tar []))], []⟩, 0⟩ from rfl]
  simp only [hm1]
  show (Except.ok (tmpRoot 0), Except.ok [],
    ((SecureContainer.mk ["c.vault"] none false).mount key
      ⟨⟨[(["c.vault"], Data.enc key (.tar [([fname], content)]))], []⟩, 1⟩).2.1.list_files
      ((SecureContainer.mk ["c.vault"] none false).mount key
        ⟨⟨[(["c.vault"], Data.enc key (.tar [([fname], content)]))], []⟩, 1⟩).2.2,
    ((SecureContainer.mk ["c.vault"] none false).mount key
      ⟨⟨[(["c.vault"], Data.enc key (.tar [([fname], content)]))], []⟩, 1⟩).2.2.fs.readFile
      ((((SecureContainer.mk ["c.vault"] none false).mount key
        ⟨⟨[(["c.vault"], Data.enc key (.tar [([fname], content)]))], []⟩, 1⟩).2.1.temp_dir.getD [])
        ++ [fname])) = _
  simp only [hm2]
  simp only [hex2, Option.getD_some]
  rw [readFile_writeFile_self]
  rfl

/-- Witness for C6 at the spec's concrete scenario: key `"pw"`, file
`notes.txt` with content `"hello"`. -/
theorem end_to_end_roundtrip_w :
    roundtrip_scenario "pw" "notes.txt" (.str "hello") =
      (.ok (tmpRoot 0), .ok [], .ok ["notes.txt"], some (.str "hello")) :=
  end_to_end_roundtrip "pw" "notes.txt" (.str "hello") (by decide) (by decide)

/-! ### C10: save packs only regular files -/

/-- Claim C10: `save` walks the WorkingTree and adds only regular files to the
archive, so a directory `d` inside the mounted WorkingTree that has no file
beneath it contributes no archive entry: after save, unmount and a fresh
mount, the corresponding directory is absent from the new WorkingTree.
(`hfreshD` is the `mkdtemp` freshness guarantee for the re-mount;  `hplain`
says the tree's file paths have plain components, as paths materialized on a
real filesystem do.) -/
theorem save_drops_empty_dirs (c : SecureContainer) (key : String) (w : World)
    (td d : AbsPath)
    (hm : c.is_mounted = true)
    (htd : c.temp_dir = some td)
    (htdd : td ∈ w.fs.dirs)
    (hcont : ¬ td <+: c.container_path)
    (hfreshD : ∀ q ∈ w.fs.dirs, ¬ tmpRoot w.fresh <+: q)
    (hdtd : td <+: d) (hdne : d ≠ td)
    (hnof : ∀ f ∈ w.fs.files, ¬ d <+: f.1)
    (hplain : ∀ f ∈ w.fs.files, td <+: f.1 →
      ".." ∉ f.1.drop td.length ∧ "." ∉ f.1.drop td.length)
    {r : Except VError AbsPath} {c' : SecureContainer} {w' : World}
    (hmt : (c.unmount (c.save key w).2).1.mount key (c.unmount (c.save key w).2).2 =
      (r, c', w')) :
    r = .ok (tmpRoot w.fresh) ∧
    tmpRoot w.fresh ++ d.drop td.length ∉ w'.fs.dirs := by
  set X : FS := w.fs.writeFile c.container_path
    (MilitaryCrypto.encrypt (packTree w.fs td) key) with hX
  have hsave : c.save key w = (.ok (), { w with fs := X }) := by
    simp [SecureContainer.save, hm, htd, hX]
  have hunm : c.unmount (c.save key w).2 =
      ({ c with temp_dir := none, is_mounted := false },
       { fs := X.rmtree td, fresh := w.fresh }) := by
    rw [hsave, unmount_of_mounted c hm]
    simp only [SecureContainer.cleanupTemp, htd]
    rw [if_pos (show td ∈ X.dirs from htdd)]
  have hread2 : (X.rmtree td).readFile c.container_path =
      some (.enc key (.tar (filesUnder w.fs td))) := by
    rw [readFile_rmtree _ hcont, hX, readFile_writeFile_self]
    rfl
  have hmount : ({ c with temp_dir := none, is_mounted := false } : SecureContainer).mount key
      ⟨X.rmtree td, w.fresh⟩ =
      (.ok (tmpRoot w.fresh),
        { c with temp_dir := some (tmpRoot w.fresh), is_mounted := true },
        ⟨extractAll (filesUnder w.fs td) (tmpRoot w.fresh)
          { files := (X.rmtree td).files,
            dirs := tmpRoot w.fresh :: (X.rmtree td).dirs },
          w.fresh + 1⟩) :=
    mount_of_clean _ key _ (filesUnder w.fs td) rfl hread2
  rw [hunm, hmount] at hmt
  simp only [Prod.mk.injEq] at hmt
  obtain ⟨hr, -, hw⟩ := hmt
  subst hr; subst hw
  refine ⟨rfl, fun hq => ?_⟩
  have hdrel : d.drop td.length ≠ [] := by
    intro hnil
    apply hdne
    have hap := append_drop_restore hdtd
    rw [hnil, List.append_nil] at hap
    exact hap.symm
  rcases mem_dirs_extractAll hq with h' | ⟨e, he, hqp⟩
  · rcases List.mem_cons.mp h' with h1 | h2
    · have hlen := congrArg List.length h1
      simp only [List.length_append] at hlen
      have hzero : (d.drop td.length).length = 0 := by omega
      exact hdrel (List.eq_nil_of_length_eq_zero hzero)
    · have hq2 := (mem_dirs_rmtree.mp h2).1
      have hq3 : tmpRoot w.fresh ++ d.drop td.length ∈ w.fs.dirs := hq2
      exact hfreshD _ hq3 (List.prefix_append _ _)
  · obtain ⟨f, hf, hpref, hef⟩ := mem_filesUnder he
    have hdots := hplain f hf hpref
    rw [hef] at hqp
    simp only at hqp
    rw [resolve_no_dots _ _ hdots.1 hdots.2] at hqp
    have hqpre := (mem_parentsOf hqp).1
    have hrel : d.drop td.length <+: f.1.drop td.length :=
      (List.prefix_append_right_inj (tmpRoot w.fresh)).mp hqpre
    apply hnof f hf
    calc d = td ++ d.drop td.length := (append_drop_restore hdtd).symm
    _ <+: td ++ f.1.drop td.length := (List.prefix_append_right_inj td).mpr hrel
    _ = f.1 := append_drop_restore hpref

/-- Witness for C10: a concrete mounted session whose WorkingTree holds one
file `a.txt` and one empty directory `empty`; after save, unmount and
re-mount, the new WorkingTree has no `empty` directory. -/
theorem save_drops_empty_dirs_w :
    (((SecureContainer.mk ["c.vault"] (some (tmpRoot 0)) true).unmount
        ((SecureContainer.mk ["c.vault"] (some (tmpRoot 0)) true).save "pw"
          ⟨⟨[(tmpRoot 0 ++ ["a.txt"], .str "1")],
            [tmpRoot 0, tmpRoot 0 ++ ["empty"]]⟩, 1⟩).2).1.mount "pw"
      ((SecureContainer.mk ["c.vault"] (some (tmpRoot 0)) true).unmount
        ((SecureContainer.mk ["c.vault"] (some (tmpRoot 0)) true).save "pw"
          ⟨⟨[(tmpRoot 0 ++ ["a.txt"], .str "1")],
            [tmpRoot 0, tmpRoot 0 ++ ["empty"]]⟩, 1⟩).2).2).1 = .ok (tmpRoot 1) ∧
    tmpRoot 1 ++ (tmpRoot 0 ++ ["empty"]).drop (tmpRoot 0).length ∉
      (((SecureContainer.mk ["c.vault"] (some (tmpRoot 0)) true).unmount
        ((SecureContainer.mk ["c.vault"] (some (tmpRoot 0)) true).save "pw"
          ⟨⟨[(tmpRoot 0 ++ ["a.txt"], .str "1")],
            [tmpRoot 0, tmpRoot 0 ++ ["empty"]]⟩, 1⟩).2).1.mount "pw"
      ((SecureContainer.mk ["c.vault"] (some (tmpRoot 0)) true).unmount
        ((SecureContainer.mk ["c.vault"] (some (tmpRoot 0)) true).save "pw"
          ⟨⟨[(tmpRoot 0 ++ ["a.txt"], .str "1")],
            [tmpRoot 0, tmpRoot 0 ++ ["empty"]]⟩, 1⟩).2).2).2.2.fs.dirs :=
  save_drops_empty_dirs (SecureContainer.mk ["c.vault"] (some (tmpRoot 0)) true) "pw"
    ⟨⟨[(tmpRoot 0 ++ ["a.txt"], .str "1")], [tmpRoot 0, tmpRoot 0 ++ ["empty"]]⟩, 1⟩
    (tmpRoot 0) (tmpRoot 0 ++ ["empty"]) rfl rfl (by decide) (by decide) (by decide)
    (by decide) (by decide) (by decide) (by decide) rfl

end ZeroFileShare
